import Mathlib

/-!
Shallow embedding of `src/main.rs` of rotkonetworks/peckr, an ICMP ping
utility with JSON output, together with theorems settling the claims of
the design specification against it.

Modelling conventions:
* `std::time::Duration` is modelled by its total length in nanoseconds
  (a `Nat`).  In current `std`, `Duration / u32` computes the floor of
  the total nanosecond count divided by the divisor, and `as_millis`
  truncates to whole milliseconds; both are Nat floor divisions here.
* `u32`/`u64` counters are modelled as `Nat`.  The counter increments
  `sent += 1`, `received += 1` are overflow-checked program errors in
  Rust (never defined wrap-around semantics for `+=`), so the embedding
  uses unbounded `Nat` addition.
* The `f64` packet-loss arithmetic is modelled exactly over `ℚ`
  (every quantity the claims touch is exactly representable).
* The two value-truncating casts that do appear in the source,
  `stats.avg_rtt().as_millis() as i64` and `config.max_latency as i64`,
  are modelled explicitly by `toI64` (two's-complement low 64 bits).
* I/O-performing steps (address parsing, DNS lookup, one echo exchange,
  the ctrl-c watcher) are parameters of the functions that consume them:
  the transport is a map from the sequence number to `Option Duration`
  (`some rtt` for a reply, `none` for a timeout or transport error) and
  the ctrl-c flag is a map from the number of completed iterations to
  `Bool`, polled exactly where `ctrl_c.is_finished()` is polled.
-/

namespace Peckr

/-- Rust `std::time::Duration`, as its total length in nanoseconds. -/
structure Duration where
  nanos : Nat
deriving DecidableEq, Repr

/-- `Duration::ZERO`. -/
def Duration.ZERO : Duration := ⟨0⟩

instance : Add Duration := ⟨fun a b => ⟨a.nanos + b.nanos⟩⟩

/-- `Duration / u32`: floor division of the nanosecond total (current
`std` semantics; the divisor is nonzero at the one call site). -/
def Duration.div (d : Duration) (n : Nat) : Duration := ⟨d.nanos / n⟩

/-- `Duration::as_millis`: truncation to whole milliseconds. -/
def Duration.as_millis (d : Duration) : Nat := d.nanos / 1000000

/-- Cast of an unsigned machine integer to `i64`: keep the low 64 bits
and reinterpret them in two's complement.  Models `as i64` applied to
the `u128` from `as_millis()` and to the `u64` field `max_latency`. -/
def toI64 (n : Nat) : Int :=
  if n % 2 ^ 64 < 2 ^ 63 then ((n % 2 ^ 64 : Nat) : Int)
  else ((n % 2 ^ 64 : Nat) : Int) - 2 ^ 64

/-- The command-line configuration `struct Args` (the CLI parsing itself
is an external collaborator; the engine consumes the parsed record). -/
structure Args where
  target : String
  count : Nat
  interval : Nat
  timeout : Nat
  ttl : Nat
  max_loss : ℚ
  max_latency : Nat
  server_name : Option String
  quiet : Bool
deriving DecidableEq, Repr

/-- `struct PingData`: the `data` payload of the JSON record. -/
structure PingData where
  latency : Int
  packetloss : ℚ
  packets_sent : Nat
  packets_received : Nat
deriving DecidableEq, Repr

/-- `struct PingResult`: the structured JSON record. -/
structure PingResult where
  checkname : String
  servername : String
  resulttype : String
  success : Bool
  error : Option String
  data : Option PingData
deriving DecidableEq, Repr

/-- `struct PingStats`: the running aggregate. -/
structure PingStats where
  sent : Nat
  received : Nat
  total_rtt : Duration
deriving DecidableEq, Repr

/-- `PingStats::new`. -/
def PingStats.new : PingStats := ⟨0, 0, Duration.ZERO⟩

/-- `PingStats::packet_loss`.  The `f64` arithmetic
`((sent - received) as f64 / sent as f64) * 100.0` is modelled exactly
over `ℚ`; `sent - received` is the `u32` subtraction, which never
underflows on reachable states (`received ≤ sent`), matching `Nat`
truncated subtraction there. -/
def PingStats.packet_loss (s : PingStats) : ℚ :=
  if s.sent = 0 then 100
  else ((s.sent - s.received : Nat) : ℚ) / (s.sent : ℚ) * 100

/-- `PingStats::avg_rtt`. -/
def PingStats.avg_rtt (s : PingStats) : Duration :=
  if s.received = 0 then Duration.ZERO
  else s.total_rtt.div s.received

/-- `PingStats::update_with_success`. -/
def PingStats.update_with_success (s : PingStats) (rtt : Duration) : PingStats :=
  { s with
    sent := s.sent + 1
    received := s.received + 1
    total_rtt := s.total_rtt + rtt }

/-- `PingStats::update_with_failure`. -/
def PingStats.update_with_failure (s : PingStats) : PingStats :=
  { s with sent := s.sent + 1 }

/-- A network address, abstract for the embedding (`std::net::IpAddr`). -/
structure IpAddr where
  repr : Nat
deriving DecidableEq, Repr

/-- A socket address as produced by `tokio::net::lookup_host`; the code
only projects out its `.ip()`. -/
structure SocketAddr where
  ip : IpAddr
  port : Nat
deriving DecidableEq, Repr

/-- `resolve_host`, with its two I/O steps as parameters: `parsed` is
the result of `host.parse::<IpAddr>()` and `lookup` the result of
`lookup_host` (an error, or the list of socket addresses it yields).
A literal address returns immediately; otherwise the first looked-up
address is taken; an empty lookup yields the literal error message. -/
def resolve_host (parsed : Option IpAddr)
    (lookup : Except String (List SocketAddr)) : Except String IpAddr :=
  match parsed with
  | some ip => Except.ok ip
  | none =>
    match lookup with
    | Except.error e => Except.error e
    | Except.ok addrs =>
      match (addrs.map SocketAddr.ip).head? with
      | some ip => Except.ok ip
      | none => Except.error "Could not resolve hostname"

/-- `create_result`: the verdict builder. -/
def create_result (config : Args) (stats : PingStats) : PingResult :=
  let packet_loss := stats.packet_loss
  let avg_rtt : Int := toI64 stats.avg_rtt.as_millis
  let success := decide (packet_loss ≤ config.max_loss) &&
    decide (avg_rtt ≤ toI64 config.max_latency) &&
    decide (avg_rtt ≠ 0)
  { checkname := "ping"
    servername := config.server_name.getD config.target
    resulttype := "site"
    success := success
    error := none
    data := some
      { latency := avg_rtt
        packetloss := packet_loss
        packets_sent := stats.sent
        packets_received := stats.received } }

/-- One loop-body stats update: the `match ping_result` in `main`
(`Ok(rtt)` records a success, `Err` records a failure). -/
def applyProbe (stats : PingStats) : Option Duration → PingStats
  | some rtt => stats.update_with_success rtt
  | none => stats.update_with_failure

/-- Stats after running the loop body for sequence numbers
`seq, seq+1, …, seq+k-1` starting from `stats`. -/
def extendStats (stats : PingStats) (probe : Nat → Option Duration)
    (seq : Nat) : Nat → PingStats
  | 0 => stats
  | k + 1 => extendStats (applyProbe stats (probe seq)) probe (seq + 1) k

/-- The probe loop of `main`, fuel-indexed.  `probe` scripts the echo
transport per sequence number; `ctrlcFinished n` is the value that
`ctrl_c.is_finished()` returns when polled after `n` completed
send/record cycles.  Returns `some (sequence, stats)` when the loop
exits within `fuel` iterations, `none` otherwise.  The bound check
`config.count > 0 && sequence >= config.count` sits at the top of the
body; the cancellation poll follows the send/record and the increment. -/
def pingLoop (count : Nat) (probe : Nat → Option Duration)
    (ctrlcFinished : Nat → Bool) :
    Nat → Nat → PingStats → Option (Nat × PingStats)
  | 0, _, _ => none
  | fuel + 1, sequence, stats =>
    if 0 < count ∧ count ≤ sequence then some (sequence, stats)
    else
      let stats1 := applyProbe stats (probe sequence)
      let sequence1 := sequence + 1
      if ctrlcFinished sequence1 then some (sequence1, stats1)
      else pingLoop count probe ctrlcFinished fuel sequence1 stats1

/-- The terminal behaviour of `main`: which JSON record is printed and
whether the process exits reporting success (`Ok(())`) or failure
(`return Err(e)` after printing the resolution-failure record).
`resolution` is the outcome of `resolve_host`; `finalStats` the stats
after the loop (unused on the resolution-failure path, which returns
before the loop starts). -/
def mainRun (config : Args) (resolution : Except String IpAddr)
    (finalStats : PingStats) : PingResult × Bool :=
  match resolution with
  | Except.error e =>
    ({ checkname := "ping"
       servername := config.server_name.getD config.target
       resulttype := "site"
       success := false
       error := some ("DNS resolution failed: " ++ e)
       data := none }, false)
  | Except.ok _ => (create_result config finalStats, true)

/-- A single stats-accumulator operation, for stating invariants over
arbitrary interleavings of the two update methods. -/
inductive Update where
  | success (rtt : Duration)
  | failure
deriving DecidableEq, Repr

/-- Apply one `Update` to the accumulator. -/
def applyUpdate (s : PingStats) : Update → PingStats
  | Update.success rtt => s.update_with_success rtt
  | Update.failure => s.update_with_failure

/-- Run a sequence of updates from the empty accumulator. -/
def runUpdates (us : List Update) : PingStats :=
  us.foldl applyUpdate PingStats.new

/-- Number of success updates in a sequence. -/
def numSuccess : List Update → Nat
  | [] => 0
  | Update.success _ :: us => numSuccess us + 1
  | Update.failure :: us => numSuccess us

/-- Sum of the durations passed to the success updates of a sequence. -/
def sumSuccess : List Update → Duration
  | [] => Duration.ZERO
  | Update.success rtt :: us => rtt + sumSuccess us
  | Update.failure :: us => sumSuccess us

/-- Scenario B of the spec: the transport fails on attempts 1 and 3
(sequence numbers 0 and 2) and succeeds on attempts 2 and 4 with
round trips of 20 ms and 30 ms. -/
def scenarioB_probe : Nat → Option Duration := fun n =>
  if n = 1 then some ⟨20000000⟩ else if n = 3 then some ⟨30000000⟩ else none

/-- Scenario B configuration: `{count:4, maxLoss:50, maxLatency:100}`. -/
def scenarioB_config : Args :=
  { target := "host"
    count := 4
    interval := 100
    timeout := 1000
    ttl := 64
    max_loss := 50
    max_latency := 100
    server_name := none
    quiet := false }

/-- Endless-mode scenario: a transport that always answers in 1 ms. -/
def endless_probe : Nat → Option Duration := fun _ => some ⟨1000000⟩

/-- Endless-mode scenario: the interrupt is observed at every poll from
the one following the 7th completed iteration onward. -/
def endless_ctrlc : Nat → Bool := fun n => decide (7 ≤ n)

/-- A run of one packet answered in half a millisecond. -/
def submilli_probe : Nat → Option Duration := fun _ => some ⟨500000⟩

/-! ### Helper lemmas -/

lemma toI64_of_lt {n : Nat} (h : n < 2 ^ 63) : toI64 n = (n : Int) := by
  have h64 : n < 2 ^ 64 := lt_of_lt_of_le h (by norm_num)
  unfold toI64
  rw [Nat.mod_eq_of_lt h64, if_pos h]

lemma Duration.add_def (a b : Duration) : a + b = ⟨a.nanos + b.nanos⟩ := rfl

lemma foldl_applyUpdate_sent (us : List Update) (s : PingStats) :
    (us.foldl applyUpdate s).sent = s.sent + us.length := by
  induction us generalizing s with
  | nil => simp
  | cons u us ih =>
    cases u <;>
      simp [applyUpdate, PingStats.update_with_success,
        PingStats.update_with_failure, ih] <;> omega

lemma foldl_applyUpdate_received (us : List Update) (s : PingStats) :
    (us.foldl applyUpdate s).received = s.received + numSuccess us := by
  induction us generalizing s with
  | nil => simp [numSuccess]
  | cons u us ih =>
    cases u <;>
      simp [applyUpdate, PingStats.update_with_success,
        PingStats.update_with_failure, ih, numSuccess] <;> omega

lemma foldl_applyUpdate_total_rtt (us : List Update) (s : PingStats) :
    (us.foldl applyUpdate s).total_rtt = s.total_rtt + sumSuccess us := by
  induction us generalizing s with
  | nil => simp [sumSuccess, Duration.add_def, Duration.ZERO]
  | cons u us ih =>
    cases u <;>
      simp [applyUpdate, PingStats.update_with_success,
        PingStats.update_with_failure, ih, sumSuccess, Duration.add_def] <;>
      omega

lemma numSuccess_le_length (us : List Update) : numSuccess us ≤ us.length := by
  induction us with
  | nil => simp [numSuccess]
  | cons u us ih => cases u <;> simp [numSuccess] <;> omega

lemma runUpdates_sent (us : List Update) : (runUpdates us).sent = us.length := by
  simp [runUpdates, foldl_applyUpdate_sent, PingStats.new]

lemma runUpdates_received (us : List Update) :
    (runUpdates us).received = numSuccess us := by
  simp [runUpdates, foldl_applyUpdate_received, PingStats.new]

lemma runUpdates_received_le_sent (us : List Update) :
    (runUpdates us).received ≤ (runUpdates us).sent := by
  rw [runUpdates_sent, runUpdates_received]
  exact numSuccess_le_length us

lemma packet_loss_nonneg (s : PingStats) : 0 ≤ s.packet_loss := by
  unfold PingStats.packet_loss
  split
  · norm_num
  · positivity

lemma packet_loss_le_100 (s : PingStats) (h : s.received ≤ s.sent) :
    s.packet_loss ≤ 100 := by
  unfold PingStats.packet_loss
  split
  · norm_num
  · rename_i hs
    have hspos : (0 : ℚ) < (s.sent : ℚ) := by
      exact_mod_cast Nat.pos_of_ne_zero hs
    have hdiv : ((s.sent - s.received : Nat) : ℚ) / (s.sent : ℚ) ≤ 1 := by
      rw [div_le_one hspos]
      exact_mod_cast Nat.sub_le s.sent s.received
    calc ((s.sent - s.received : Nat) : ℚ) / (s.sent : ℚ) * 100
        ≤ 1 * 100 := by
          exact mul_le_mul_of_nonneg_right hdiv (by norm_num)
      _ = 100 := by norm_num

lemma extendStats_sent (probe : Nat → Option Duration) :
    ∀ (k seq : Nat) (stats : PingStats),
      (extendStats stats probe seq k).sent = stats.sent + k := by
  intro k
  induction k with
  | zero => intro seq stats; simp [extendStats]
  | succ k ih =>
    intro seq stats
    rw [extendStats, ih]
    cases probe seq <;>
      simp [applyProbe, PingStats.update_with_success,
        PingStats.update_with_failure] <;> omega

lemma pingLoop_bounded (N : Nat) (probe : Nat → Option Duration) (hN : 0 < N) :
    ∀ (k seq : Nat) (stats : PingStats), seq + k = N →
      pingLoop N probe (fun _ => false) (k + 1) seq stats =
        some (N, extendStats stats probe seq k) := by
  intro k
  induction k with
  | zero =>
    intro seq stats hseq
    have hseqN : seq = N := by omega
    subst hseqN
    rw [pingLoop, if_pos ⟨hN, Nat.le_refl _⟩]
    simp [extendStats]
  | succ k ih =>
    intro seq stats hseq
    rw [pingLoop]
    have hlt : ¬(0 < N ∧ N ≤ seq) := by omega
    rw [if_neg hlt]
    simp only [if_neg (Bool.false_ne_true)]
    rw [ih (seq + 1) (applyProbe stats (probe seq)) (by omega)]
    rfl

lemma pingLoop_endless_none (probe : Nat → Option Duration) :
    ∀ (fuel seq : Nat) (stats : PingStats),
      pingLoop 0 probe (fun _ => false) fuel seq stats = none := by
  intro fuel
  induction fuel with
  | zero => intro seq stats; rw [pingLoop]
  | succ fuel ih =>
    intro seq stats
    rw [pingLoop]
    simp [ih]

lemma pingLoop_endless_some (probe : Nat → Option Duration) (c : Nat → Bool) :
    ∀ (fuel seq : Nat) (stats : PingStats) (p : Nat × PingStats),
      pingLoop 0 probe c fuel seq stats = some p →
      seq < p.1 ∧ c p.1 = true ∧
        (∀ j, seq < j → j < p.1 → c j = false) ∧
        p.2 = extendStats stats probe seq (p.1 - seq) := by
  intro fuel
  induction fuel with
  | zero => intro seq stats p h; rw [pingLoop] at h; exact absurd h (by simp)
  | succ fuel ih =>
    intro seq stats p h
    rw [pingLoop] at h
    rw [if_neg (by omega : ¬(0 < 0 ∧ 0 ≤ seq))] at h
    by_cases hc : c (seq + 1) = true
    · rw [if_pos hc] at h
      have hp : p = (seq + 1, applyProbe stats (probe seq)) :=
        (Option.some_inj.mp h).symm
      subst hp
      refine ⟨by omega, hc, ?_, ?_⟩
      · intro j h1 h2; omega
      · simp [extendStats]
    · rw [if_neg hc] at h
      obtain ⟨h1, h2, h3, h4⟩ := ih (seq + 1) (applyProbe stats (probe seq)) p h
      refine ⟨by omega, h2, ?_, ?_⟩
      · intro j hj1 hj2
        rcases Nat.eq_or_lt_of_le hj1 with heq | hlt
        · subst heq
          simpa using hc
        · exact h3 j hlt hj2
      · have hk : p.1 - seq = (p.1 - (seq + 1)) + 1 := by omega
        rw [hk, extendStats]
        exact h4

/-! ### Claim theorems -/

/-- C1: for every final `RunStats` and `ProbeConfig`, the verdict builder
computes `success = (lossPercent ≤ max loss) AND (average RTT in whole
milliseconds ≤ max latency) AND (average RTT in whole milliseconds ≠ 0)`,
and the average latency used for the verdict and placed in `data.latency`
is truncated — floor of the exact average, not rounded — to integer
milliseconds.  The side conditions say the millisecond values fit in
`i64`, where the source's `as i64` casts are the identity. -/
theorem claim1_verdict_formula (config : Args) (stats : PingStats)
    (hms : stats.avg_rtt.as_millis < 2 ^ 63)
    (hlat : config.max_latency < 2 ^ 63) :
    ((create_result config stats).success = true ↔
      (stats.packet_loss ≤ config.max_loss ∧
        stats.avg_rtt.as_millis ≤ config.max_latency ∧
        stats.avg_rtt.as_millis ≠ 0)) ∧
    (create_result config stats).data = some
      { latency := (stats.avg_rtt.as_millis : Int)
        packetloss := stats.packet_loss
        packets_sent := stats.sent
        packets_received := stats.received } ∧
    (stats.received ≠ 0 →
      stats.avg_rtt.as_millis * (stats.received * 1000000) ≤
          stats.total_rtt.nanos ∧
        stats.total_rtt.nanos <
          (stats.avg_rtt.as_millis + 1) * (stats.received * 1000000)) := by
  refine ⟨?_, ?_, ?_⟩
  · simp only [create_result, toI64_of_lt hms, toI64_of_lt hlat,
      Bool.and_eq_true, decide_eq_true_eq]
    constructor
    · rintro ⟨⟨h1, h2⟩, h3⟩
      exact ⟨h1, by exact_mod_cast h2, by exact_mod_cast h3⟩
    · rintro ⟨h1, h2, h3⟩
      exact ⟨⟨h1, by exact_mod_cast h2⟩, by exact_mod_cast h3⟩
  · simp [create_result, toI64_of_lt hms]
  · intro hrec
    have hmil : stats.avg_rtt.as_millis =
        stats.total_rtt.nanos / (stats.received * 1000000) := by
      rw [PingStats.avg_rtt, if_neg hrec]
      simp [Duration.as_millis, Duration.div, Nat.div_div_eq_div_mul]
    have hb : 0 < stats.received * 1000000 := by
      have := Nat.pos_of_ne_zero hrec
      positivity
    constructor
    · rw [hmil]
      exact Nat.div_mul_le_self _ _
    · rw [hmil, Nat.succ_mul]
      exact Nat.lt_div_mul_add hb

/-- C1 witness: the theorem applied to scenario-B-like concrete inputs. -/
theorem claim1_verdict_formula_witness :
    ((PingStats.mk 4 2 ⟨50000000⟩).avg_rtt.as_millis < 2 ^ 63 ∧
      scenarioB_config.max_latency < 2 ^ 63) ∧
    (((create_result scenarioB_config ⟨4, 2, ⟨50000000⟩⟩).success = true ↔
      ((PingStats.mk 4 2 ⟨50000000⟩).packet_loss ≤ scenarioB_config.max_loss ∧
        (PingStats.mk 4 2 ⟨50000000⟩).avg_rtt.as_millis ≤
          scenarioB_config.max_latency ∧
        (PingStats.mk 4 2 ⟨50000000⟩).avg_rtt.as_millis ≠ 0)) ∧
    (create_result scenarioB_config ⟨4, 2, ⟨50000000⟩⟩).data = some
      { latency := ((PingStats.mk 4 2 ⟨50000000⟩).avg_rtt.as_millis : Int)
        packetloss := (PingStats.mk 4 2 ⟨50000000⟩).packet_loss
        packets_sent := 4
        packets_received := 2 } ∧
    ((PingStats.mk 4 2 ⟨50000000⟩).received ≠ 0 →
      (PingStats.mk 4 2 ⟨50000000⟩).avg_rtt.as_millis * (2 * 1000000) ≤
          50000000 ∧
        (50000000 : Nat) <
          ((PingStats.mk 4 2 ⟨50000000⟩).avg_rtt.as_millis + 1) *
            (2 * 1000000))) :=
  ⟨⟨by decide, by decide⟩,
    claim1_verdict_formula scenarioB_config ⟨4, 2, ⟨50000000⟩⟩
      (by decide) (by decide)⟩

/-- C2: starting from the empty accumulator, any interleaving of the two
update operations preserves `received ≤ sent`, and `total_rtt` is exactly
the sum of the durations passed to the success updates. -/
theorem claim2_stats_invariant (us : List Update) :
    (runUpdates us).received ≤ (runUpdates us).sent ∧
    (runUpdates us).total_rtt = sumSuccess us := by
  constructor
  · exact runUpdates_received_le_sent us
  · rw [runUpdates, foldl_applyUpdate_total_rtt]
    simp [PingStats.new, Duration.add_def, Duration.ZERO]

/-- C3: on every accumulator state reachable from the empty state,
`packet_loss` is 100 when `sent = 0` and `(sent - received) / sent * 100`
otherwise (the `sent = 0` guard means it never divides by zero), and its
value lies in `[0, 100]`. -/
theorem claim3_packet_loss_range (us : List Update) :
    (runUpdates us).packet_loss =
      (if (runUpdates us).sent = 0 then 100
        else (((runUpdates us).sent - (runUpdates us).received : Nat) : ℚ) /
          ((runUpdates us).sent : ℚ) * 100) ∧
    0 ≤ (runUpdates us).packet_loss ∧ (runUpdates us).packet_loss ≤ 100 := by
  refine ⟨rfl, packet_loss_nonneg _, ?_⟩
  exact packet_loss_le_100 _ (runUpdates_received_le_sent us)

/-- C4: `avg_rtt` is zero when `received = 0` and `total_rtt / received`
otherwise, and the verdict builder returns `success = false` whenever the
average in whole milliseconds is zero, whatever the thresholds are. -/
theorem claim4_zero_avg_fails (config : Args) (s : PingStats) :
    s.avg_rtt =
      (if s.received = 0 then Duration.ZERO else s.total_rtt.div s.received) ∧
    (s.avg_rtt.as_millis = 0 → (create_result config s).success = false) := by
  refine ⟨rfl, fun h => ?_⟩
  have h0 : toI64 s.avg_rtt.as_millis = 0 := by
    rw [h]
    decide
  simp [create_result, h0]

/-- C4 witness: a state with no replies has zero average and, for a
concrete configuration, a false verdict. -/
theorem claim4_zero_avg_fails_witness :
    (PingStats.mk 3 0 ⟨0⟩).avg_rtt =
      (if (PingStats.mk 3 0 ⟨0⟩).received = 0 then Duration.ZERO
        else Duration.div ⟨0⟩ 0) ∧
    ((PingStats.mk 3 0 ⟨0⟩).avg_rtt.as_millis = 0 ∧
      (create_result scenarioB_config ⟨3, 0, ⟨0⟩⟩).success = false) :=
  ⟨(claim4_zero_avg_fails scenarioB_config ⟨3, 0, ⟨0⟩⟩).1,
    by decide,
    (claim4_zero_avg_fails scenarioB_config ⟨3, 0, ⟨0⟩⟩).2 (by decide)⟩

/-- C5: every terminal record populates exactly one of `error` and
`data`: a resolution failure sets `error` (to a resolution-failure
message), leaves `data` null and `success` false; a completed run sets
`data` (latency, loss, packets sent, packets received) and leaves
`error` null, whatever the final statistics are. -/
theorem claim5_error_data_exclusive :
    (∀ (config : Args) (e : String) (stats : PingStats),
      (mainRun config (Except.error e) stats).1.error =
          some ("DNS resolution failed: " ++ e) ∧
        (mainRun config (Except.error e) stats).1.data = none ∧
        (mainRun config (Except.error e) stats).1.success = false) ∧
    (∀ (config : Args) (ip : IpAddr) (stats : PingStats),
      (mainRun config (Except.ok ip) stats).1.error = none ∧
        (mainRun config (Except.ok ip) stats).1.data = some
          { latency := toI64 stats.avg_rtt.as_millis
            packetloss := stats.packet_loss
            packets_sent := stats.sent
            packets_received := stats.received }) ∧
    (∀ (config : Args) (resolution : Except String IpAddr)
        (stats : PingStats),
      ((mainRun config resolution stats).1.error = none ↔
        (mainRun config resolution stats).1.data ≠ none)) := by
  refine ⟨fun config e stats => ⟨rfl, rfl, rfl⟩,
    fun config ip stats => ⟨rfl, rfl⟩, ?_⟩
  intro config resolution stats
  cases resolution with
  | error e => simp [mainRun]
  | ok ip => simp [mainRun, create_result]

/-- C6: the loop checks termination after sending and recording, never
before.  For count `N > 0` and no cancellation it performs exactly `N`
send/record cycles and exits with `sent = N`; for count 0 it never exits
without a cancellation signal, and when it exits at the first iteration
boundary at which the signal is observed it has performed exactly that
many full cycles, with no partial extra record. -/
theorem claim6_loop_termination :
    (∀ (N : Nat) (probe : Nat → Option Duration), 0 < N →
      pingLoop N probe (fun _ => false) (N + 1) 0 PingStats.new =
          some (N, extendStats PingStats.new probe 0 N) ∧
        (extendStats PingStats.new probe 0 N).sent = N) ∧
    (∀ (probe : Nat → Option Duration) (fuel seq : Nat) (stats : PingStats),
      pingLoop 0 probe (fun _ => false) fuel seq stats = none) ∧
    (∀ (probe : Nat → Option Duration) (c : Nat → Bool) (fuel : Nat)
        (p : Nat × PingStats),
      pingLoop 0 probe c fuel 0 PingStats.new = some p →
      0 < p.1 ∧ c p.1 = true ∧ (∀ j, 0 < j → j < p.1 → c j = false) ∧
        p.2 = extendStats PingStats.new probe 0 p.1 ∧ p.2.sent = p.1) := by
  refine ⟨?_, ?_, ?_⟩
  · intro N probe hN
    refine ⟨pingLoop_bounded N probe hN N 0 PingStats.new (by omega), ?_⟩
    rw [extendStats_sent]
    simp [PingStats.new]
  · intro probe fuel seq stats
    exact pingLoop_endless_none probe fuel seq stats
  · intro probe c fuel p h
    obtain ⟨h1, h2, h3, h4⟩ :=
      pingLoop_endless_some probe c fuel 0 PingStats.new p h
    refine ⟨h1, h2, h3, by simpa using h4, ?_⟩
    rw [h4, extendStats_sent]
    simp [PingStats.new]

/-- C6 witness: the theorem applied to a bounded run of four packets, to
an endless run that never observes the interrupt, and to the endless-mode
scenario in which the interrupt is observed after the 7th completed
iteration. -/
theorem claim6_loop_termination_witness :
    (0 < 4 ∧
      pingLoop 4 scenarioB_probe (fun _ => false) 5 0 PingStats.new =
          some (4, extendStats PingStats.new scenarioB_probe 0 4) ∧
        (extendStats PingStats.new scenarioB_probe 0 4).sent = 4) ∧
    pingLoop 0 endless_probe (fun _ => false) 9 3 PingStats.new = none ∧
    (pingLoop 0 endless_probe endless_ctrlc 20 0 PingStats.new =
        some (7, ⟨7, 7, ⟨7000000⟩⟩) ∧
      (0 < (7, (⟨7, 7, ⟨7000000⟩⟩ : PingStats)).1 ∧
        endless_ctrlc 7 = true ∧
        (∀ j, 0 < j → j < (7, (⟨7, 7, ⟨7000000⟩⟩ : PingStats)).1 →
          endless_ctrlc j = false) ∧
        (7, (⟨7, 7, ⟨7000000⟩⟩ : PingStats)).2 =
          extendStats PingStats.new endless_probe 0 7 ∧
        (PingStats.mk 7 7 ⟨7000000⟩).sent = 7)) :=
  ⟨⟨by decide, claim6_loop_termination.1 4 scenarioB_probe (by decide)⟩,
    claim6_loop_termination.2.1 endless_probe 9 3 PingStats.new,
    by decide,
    claim6_loop_termination.2.2 endless_probe endless_ctrlc 20
      (7, ⟨7, 7, ⟨7000000⟩⟩) (by decide)⟩

/-- C7: the resolver returns a literal address immediately — the lookup
outcome is irrelevant — and otherwise takes the first address the lookup
yields; it fails exactly when the string is not a literal address and the
lookup errors or yields no addresses, with no fallback and no retry. -/
theorem claim7_resolver :
    (∀ (ip : IpAddr) (lookup : Except String (List SocketAddr)),
      resolve_host (some ip) lookup = Except.ok ip) ∧
    (∀ e : String, resolve_host none (Except.error e) = Except.error e) ∧
    (∀ (sa : SocketAddr) (tl : List SocketAddr),
      resolve_host none (Except.ok (sa :: tl)) = Except.ok sa.ip) ∧
    resolve_host none (Except.ok []) =
      Except.error "Could not resolve hostname" ∧
    (∀ (parsed : Option IpAddr) (lookup : Except String (List SocketAddr)),
      (∃ e, resolve_host parsed lookup = Except.error e) ↔
        parsed = none ∧
          (lookup = Except.ok [] ∨ ∃ e, lookup = Except.error e)) := by
  refine ⟨fun ip lookup => rfl, fun e => rfl, fun sa tl => rfl, rfl, ?_⟩
  intro parsed lookup
  cases parsed with
  | some ip => simp [resolve_host]
  | none =>
    cases lookup with
    | error e => simp [resolve_host]
    | ok addrs => cases addrs <;> simp [resolve_host]

/-- C8: scenario B — count 4, max loss 50, max latency 100, failures on
attempts 1 and 3, successes on 2 and 4 with 20 ms and 30 ms — ends with
`sent = 4`, `received = 2`, `lossPercent = 50`, average RTT 25 ms, and a
true verdict: loss equal to the configured maximum passes, so the
comparison is inclusive. -/
theorem claim8_scenarioB :
    pingLoop 4 scenarioB_probe (fun _ => false) 5 0 PingStats.new =
        some (4, extendStats PingStats.new scenarioB_probe 0 4) ∧
    extendStats PingStats.new scenarioB_probe 0 4 = ⟨4, 2, ⟨50000000⟩⟩ ∧
    (extendStats PingStats.new scenarioB_probe 0 4).packet_loss = 50 ∧
    scenarioB_config.max_loss = 50 ∧
    (extendStats PingStats.new scenarioB_probe 0 4).avg_rtt = ⟨25000000⟩ ∧
    (extendStats PingStats.new scenarioB_probe 0 4).avg_rtt.as_millis = 25 ∧
    (create_result scenarioB_config
      (extendStats PingStats.new scenarioB_probe 0 4)).success = true := by
  have hstats : extendStats PingStats.new scenarioB_probe 0 4 =
      ⟨4, 2, ⟨50000000⟩⟩ := by decide
  refine ⟨by decide, hstats, ?_, rfl, by decide, by decide, ?_⟩
  · rw [hstats]
    norm_num [PingStats.packet_loss]
  · rw [hstats]
    norm_num [create_result, toI64, PingStats.packet_loss, PingStats.avg_rtt,
      Duration.div, Duration.as_millis, Duration.ZERO, scenarioB_config]

/-- C9: the process reports a failure exit status if and only if
resolution failed; every completed run reports a success exit status,
whatever the computed `success` field was. -/
theorem claim9_exit_status (config : Args)
    (resolution : Except String IpAddr) (stats : PingStats) :
    ((mainRun config resolution stats).2 = false ↔
      ∃ e, resolution = Except.error e) ∧
    ((mainRun config resolution stats).2 = true ↔
      ∃ ip, resolution = Except.ok ip) := by
  cases resolution with
  | error e => simp [mainRun]
  | ok ip => simp [mainRun]

/-- C10: a one-packet run answered in half a millisecond has a reply
(`received = 1`) and a positive sub-millisecond average, yet the verdict
is false for every configuration, because truncation to whole
milliseconds makes the average zero; conversely a true verdict forces the
(truncated) average round-trip time to be at least one millisecond. -/
theorem claim10_submilli_truncation :
    pingLoop 1 submilli_probe (fun _ => false) 2 0 PingStats.new =
        some (1, extendStats PingStats.new submilli_probe 0 1) ∧
    (extendStats PingStats.new submilli_probe 0 1).received = 1 ∧
    0 < (extendStats PingStats.new submilli_probe 0 1).avg_rtt.nanos ∧
    (extendStats PingStats.new submilli_probe 0 1).avg_rtt.nanos < 1000000 ∧
    (∀ config : Args,
      (create_result config
        (extendStats PingStats.new submilli_probe 0 1)).success = false) ∧
    (∀ (config : Args) (s : PingStats),
      (create_result config s).success = true →
        1000000 ≤ s.avg_rtt.nanos) := by
  refine ⟨by decide, by decide, by decide, by decide, ?_, ?_⟩
  · intro config
    have h0 : toI64
        (extendStats PingStats.new submilli_probe 0 1).avg_rtt.as_millis =
          0 := by decide
    simp [create_result, h0]
  · intro config s hs
    by_contra hlt
    push_neg at hlt
    have hmil : s.avg_rtt.as_millis = 0 := by
      unfold Duration.as_millis
      exact Nat.div_eq_of_lt hlt
    have h0 : toI64 s.avg_rtt.as_millis = 0 := by
      rw [hmil]
      decide
    simp [create_result, h0] at hs

/-- C10 witness: a configuration and statistics with a true verdict,
whose average round-trip time is therefore at least one millisecond. -/
theorem claim10_submilli_truncation_witness :
    (create_result scenarioB_config ⟨4, 2, ⟨50000000⟩⟩).success = true ∧
    1000000 ≤ (PingStats.mk 4 2 ⟨50000000⟩).avg_rtt.nanos := by
  have hs : (create_result scenarioB_config ⟨4, 2, ⟨50000000⟩⟩).success =
      true := by
    norm_num [create_result, toI64, PingStats.packet_loss, PingStats.avg_rtt,
      Duration.div, Duration.as_millis, Duration.ZERO, scenarioB_config]
  exact ⟨hs,
    claim10_submilli_truncation.2.2.2.2.2 scenarioB_config ⟨4, 2, ⟨50000000⟩⟩ hs⟩

end Peckr
